import Mathlib

/-!
Verification of the commodity trade-statistics acquisition and transformation
pipeline (crawl driver `commodity_wise_import_scraper.py`, transformer
`transform_to_long_format_export.py`, consolidation `merge_transformed_files.py`).

The Python sources are shallowly embedded: spreadsheets are grids of optional
string cells (`none` models a pandas `NaN`), the filesystem is explicit state
(directory and file listings), wall-clock time and the staging directory are
explicit parameters, and the browser session is an abstract, deterministic
oracle.  All definitions are executable and follow the source line by line.
-/

set_option maxRecDepth 10000

/-! ### String helpers (models of the Python primitives used by the sources) -/

/-- Model of Python's whitespace test used by `str.strip()` (common ASCII cases). -/
def pySpace (c : Char) : Bool :=
  c == ' ' || c == '\t' || c == '\n' || c == '\r' || c == '\x0b' || c == '\x0c'

/-- Model of Python `str.strip()`: drop whitespace at both ends. -/
def pyStrip (s : String) : String :=
  String.mk (((s.data.dropWhile pySpace).reverse.dropWhile pySpace).reverse)

/-- Model of Python `str.lower()` for the ASCII labels that occur in headers. -/
def lowerStr (s : String) : String :=
  String.mk (s.data.map Char.toLower)

/-- Model of Python `str.endswith(suffix)`. -/
def strEndsWith (s suffix : String) : Bool :=
  List.isSuffixOf suffix.data s.data

/-- The numeric value of a list of ASCII digits (most significant first). -/
def natOfDigits (ds : List Char) : Nat :=
  ds.foldl (fun a c => a * 10 + (c.toNat - 48)) 0

/-- Model of Python `float(str)` restricted to finite decimal literals:
optional sign, integer digits, optional fractional part, optional exponent,
surrounding whitespace ignored.  (`inf`/`nan`/underscore forms are not used by
the data and are rejected.)  Returns `none` where Python raises `ValueError`;
the exact rational replaces the IEEE double, which is exact on the decimal
fractions the claims exercise. -/
def pyFloat (s : String) : Option ℚ :=
  let cs := (pyStrip s).data
  let sgncs : Bool × List Char :=
    match cs with
    | '+' :: r => (false, r)
    | '-' :: r => (true, r)
    | _ => (false, cs)
  let neg := sgncs.1
  let cs1 := sgncs.2
  let intDs := cs1.takeWhile Char.isDigit
  let rest1 := cs1.dropWhile Char.isDigit
  let fracRest : List Char × List Char :=
    match rest1 with
    | '.' :: r => (r.takeWhile Char.isDigit, r.dropWhile Char.isDigit)
    | _ => ([], rest1)
  let fracDs := fracRest.1
  let rest2 := fracRest.2
  if intDs.isEmpty && fracDs.isEmpty then none
  else
    let expRest : Bool × Int × List Char :=
      match rest2 with
      | 'e' :: r | 'E' :: r =>
        let esgnr : Int × List Char :=
          match r with
          | '+' :: rr => (1, rr)
          | '-' :: rr => (-1, rr)
          | _ => (1, r)
        let eDs := esgnr.2.takeWhile Char.isDigit
        (!eDs.isEmpty, esgnr.1 * (natOfDigits eDs : Int), esgnr.2.dropWhile Char.isDigit)
      | _ => (true, 0, rest2)
    if expRest.1 && expRest.2.2.isEmpty then
      let mantissa : Nat := natOfDigits intDs * 10 ^ fracDs.length + natOfDigits fracDs
      let signedMantissa : Int := if neg then -(mantissa : Int) else (mantissa : Int)
      let e := expRest.2.1
      if 0 ≤ e then some (mkRat (signedMantissa * (10 : Int) ^ e.toNat) (10 ^ fracDs.length))
      else some (mkRat signedMantissa (10 ^ fracDs.length * 10 ^ (-e).toNat))
    else none

/-! ### Month/year header pattern

Model of `re.search(r'([A-Za-z]+)-?([A-Za-z]*)?(\d{4})', col_str)` from
`transform_to_long_format_export.py` (line 64): leftmost match, each quantifier
greedy with backtracking, returning (group 1, group 3) = (month token, year). -/

/-- Length of the maximal `[A-Za-z]+` run at the head of the character list. -/
def alphaRunLen : List Char → Nat
  | [] => 0
  | c :: r => if c.isAlpha then alphaRunLen r + 1 else 0

/-- Whether the list starts with four ASCII digits (`\d{4}`). -/
def fourDigitsAt : List Char → Bool
  | c1 :: c2 :: c3 :: c4 :: _ => c1.isDigit && c2.isDigit && c3.isDigit && c4.isDigit
  | _ => false

/-- Try to match `([A-Za-z]*)?(\d{4})` at `rest2`, greedily (longest alpha run
first, backtracking downwards); returns the year digits on success. -/
def yearTokenAfter (rest2 : List Char) : Option String :=
  ((List.range (alphaRunLen rest2 + 1)).reverse).findSome? fun m =>
    let rest3 := rest2.drop m
    if fourDigitsAt rest3 then some (String.mk (rest3.take 4)) else none

/-- Try to match the whole pattern anchored at the head of `cs`: month run of
length `k = a, a-1, …, 1`, then `-?` (dash consumed first), then the tail. -/
def matchMonthYearAt (cs : List Char) : Option (String × String) :=
  ((List.range (alphaRunLen cs)).map fun i => alphaRunLen cs - i).findSome? fun k =>
    let month := String.mk (cs.take k)
    let rest1 := cs.drop k
    let cands : List (List Char) :=
      match rest1 with
      | '-' :: tail => [tail, rest1]
      | _ => [rest1]
    cands.findSome? fun rest2 => (yearTokenAfter rest2).map fun yr => (month, yr)

/-- Leftmost search: try each start position in order. -/
def monthYearSearchAux : List Char → Option (String × String)
  | [] => none
  | c :: rest =>
    match matchMonthYearAt (c :: rest) with
    | some r => some r
    | none => monthYearSearchAux rest

/-- Search result: `monthYearSearch s = some (month, year)` iff the regex search succeeds. -/
def monthYearSearch (s : String) : Option (String × String) :=
  monthYearSearchAux s.data

/-! ### Wide-to-long transformer (`transform_to_long_format_export.py`) -/

/-- One long-format output row with the canonical schema
`HSCod, Commodity, Value, Country, Date, Type` (line 77). -/
structure LongRecord where
  hscod : String
  commodity : String
  value : ℚ
  country : String
  date : String
  type : String
deriving DecidableEq

/-- The deduplication key `(HSCod, Country, Date)` used by `drop_duplicates`
(lines 186 and 83–86 of the merge script). -/
def recKey (r : LongRecord) : String × String × String :=
  (r.hscod, r.country, r.date)

/-- Model of `str(cell)` for a grid cell: a pandas `NaN` prints as `"nan"`. -/
def cellToStr : Option String → String
  | none => "nan"
  | some s => s

/-- The non-value header labels skipped by `extract_year_columns` (line 59). -/
def yearColSkip : List String := ["S.No.", "Country", "(R)", "%Growth", "nan", ""]

/-- Model of `extract_year_columns(df_header_row)` (lines 46–70): for each header cell,
skip the known metadata labels, otherwise run the month/year pattern; collect
`(column_index, column_name, year, month)`. -/
def extract_year_columns (headerRow : List (Option String)) :
    List (Nat × String × String × String) :=
  headerRow.enum.filterMap fun p =>
    let colStr := pyStrip (cellToStr p.2)
    if colStr ∈ yearColSkip then none
    else
      match monthYearSearch colStr with
      | some my => some (p.1, colStr, my.2, my.1)
      | none => none

/-- The country-column scan of `process_monthly_file` (lines 99–103): first
index whose trimmed, lowercased label is `"country"`. -/
def findCountryIdx (headerRow : List (Option String)) : Option Nat :=
  headerRow.enum.findSome? fun p =>
    if lowerStr (pyStrip (cellToStr p.2)) = "country" then some p.1 else none

/-- Model of `process_monthly_file(filepath, hscode, commodity_name, data_type)`
(lines 73–153).  The spreadsheet is a grid of optional string cells; row
index 2 is the header, data rows start at index 3.  Returns `none` exactly
where the Python returns `None` (file too short, no year columns, no country
column, or no surviving records). -/
def process_monthly_file (grid : List (List (Option String)))
    (hscode commodity_name : String) (data_type : String := "Export") :
    Option (List LongRecord) :=
  if grid.length < 3 then none
  else
    let headerRow := grid.getD 2 []
    let dataRows := grid.drop 3
    let yearColumns := extract_year_columns headerRow
    if yearColumns.isEmpty then none
    else
      match findCountryIdx headerRow with
      | none => none
      | some countryIdx =>
        let longData := dataRows.flatMap fun row =>
          let country := pyStrip (cellToStr (row.getD countryIdx none))
          if country ∈ ["", "nan", "None"] then []
          else
            yearColumns.filterMap fun col =>
              match row.getD col.1 none with
              | none => none
              | some v =>
                if v = "" then none
                else
                  match pyFloat v with
                  | none => none
                  | some q =>
                    some { hscod := hscode, commodity := commodity_name, value := q,
                           country := country, date := col.2.2.2 ++ "-" ++ col.2.2.1,
                           type := data_type }
        if longData.isEmpty then none else some longData

/-- Model of `drop_duplicates(subset=['HSCod','Country','Date'], keep='first')` with an
explicit seen-key set: the first record with each key survives. -/
def drop_duplicates_seen : List LongRecord → List (String × String × String) → List LongRecord
  | [], _ => []
  | r :: rs, seen =>
    if recKey r ∈ seen then drop_duplicates_seen rs seen
    else r :: drop_duplicates_seen rs (recKey r :: seen)

/-- Pandas `drop_duplicates` on `(HSCod, Country, Date)` keeping the first
occurrence (line 186 and merge lines 83–86). -/
def drop_duplicates_first (l : List LongRecord) : List LongRecord :=
  drop_duplicates_seen l []

/-- Lexicographic comparison of character lists by code point — the order
Python's `sorted` uses on strings. -/
def charListLe : List Char → List Char → Bool
  | [], _ => true
  | _ :: _, [] => false
  | a :: as, b :: bs => if a = b then charListLe as bs else decide (a < b)

/-- Python's `≤` on strings (lexicographic by code point). -/
def pyLe (a b : String) : Prop := charListLe a.data b.data = true

instance : DecidableRel pyLe := fun a b => by unfold pyLe; infer_instance

/-- Model of `sorted([f for f in os.listdir(hscode_dir) if f.endswith('.xlsx')])`
(line 167): Python's `sorted` on strings is a stable lexicographic sort on
code points. -/
def excelFilesOf (listing : List String) : List String :=
  List.insertionSort pyLe (listing.filter fun f => strEndsWith f ".xlsx")

/-- The per-file collection loop of `process_hscode_directory` (lines 171–179):
a file contributes its record list when the transform returned data. -/
def monthlyFrames (contents : String → List (List (Option String)))
    (hscode commodity_name : String) (files : List String) : List (List LongRecord) :=
  files.filterMap fun f =>
    match process_monthly_file (contents f) hscode commodity_name with
    | some recs => if recs.isEmpty then none else some recs
    | none => none

/-- Model of `process_hscode_directory(hscode_dir, hscode, commodity_name)`
(lines 156–192): sorted `.xlsx` listing, per-file transform, concatenation,
deduplication keeping the first occurrence.  `contents` maps a filename to the
grid read from it. -/
def process_hscode_directory (listing : List String)
    (contents : String → List (List (Option String)))
    (hscode commodity_name : String) : Option (List LongRecord) :=
  let allData := monthlyFrames contents hscode commodity_name (excelFilesOf listing)
  if allData.isEmpty then none
  else some (drop_duplicates_first allData.flatten)

/-- The sort key order `['HSCod', 'Date', 'Country']` of `sort_values`
(merge line 91). -/
def recordLe (a b : LongRecord) : Prop :=
  a.hscod < b.hscod ∨ (a.hscod = b.hscod ∧
    (a.date < b.date ∨ (a.date = b.date ∧ a.country ≤ b.country)))

instance : DecidableRel recordLe := fun a b => by
  unfold recordLe; infer_instance

/-- The consolidation step of `merge_excel_files` (merge lines 79–91):
concatenate the frames, drop duplicates on `(HSCod, Country, Date)` keeping
the first occurrence, then sort by `(HSCod, Date, Country)`. -/
def merge_excel_files (frames : List (List LongRecord)) : List LongRecord :=
  List.insertionSort recordLe (drop_duplicates_first frames.flatten)

/-! ### Crawl driver (`commodity_wise_import_scraper.py`)

The wall clock is frozen at `(now_year, now_month)` for the whole run
(`now = datetime.datetime.now()`, line 114; `is_hscode_completed` re-reads the
clock at line 71, which yields the same value within one run).  The remote
report tool plus browser is an abstract deterministic oracle
`sess : hscode → year → month → SessionStep`. -/

/-- Model of `datetime.date(year, month, 1).strftime('%B')` (lines 79 and 146). -/
def monthName : Nat → String
  | 1 => "January" | 2 => "February" | 3 => "March" | 4 => "April"
  | 5 => "May" | 6 => "June" | 7 => "July" | 8 => "August"
  | 9 => "September" | 10 => "October" | 11 => "November" | 12 => "December"
  | _ => ""

/-- The canonical artifact name `f"{month_name}_{year}.xlsx"` (lines 80, 147). -/
def targetFilename (year month : Nat) : String :=
  monthName month ++ "_" ++ Nat.repr year ++ ".xlsx"

/-- The months visited for `year` by `for month in range(1, 13)` with the break
`if year == now.year and month > now.month: break` (lines 74–77 and 139–143). -/
def monthsUpTo (year now_year now_month : Nat) : List Nat :=
  (List.range' 1 12).takeWhile fun m => decide ¬(year = now_year ∧ now_month < m)

/-- The full `(year, month)` grid iterated by the driver:
`for year in range(start_year, current_year + 1)` (line 137) with the
per-year month loop above. -/
def periodGrid (start_year now_year now_month : Nat) : List (Nat × Nat) :=
  (List.range' start_year (now_year + 1 - start_year)).flatMap fun y =>
    (monthsUpTo y now_year now_month).map fun m => (y, m)

/-- Model of `is_hscode_completed(hscode_dir, start_year, end_year)` (lines 63–86): the
code's directory must exist, and every expected monthly artifact must be
present; on the first missing file the Python returns `False`, which agrees
with `List.all`.  `dirs` and `files` are the storage tree: existing per-code
directories, and `(code, filename)` pairs of existing artifacts. -/
def is_hscode_completed (dirs : List String) (files : List (String × String))
    (hscode : String) (start_year end_year now_year now_month : Nat) : Bool :=
  if hscode ∈ dirs then
    (List.range' start_year (end_year + 1 - start_year)).all fun y =>
      (monthsUpTo y now_year now_month).all fun m =>
        decide ((hscode, targetFilename y m) ∈ files)
  else false

/-- A "month (year, month) is not in the future" completion requirement taken
verbatim from the spec's words for the Completion Oracle, for comparison with
`is_hscode_completed`.  Years `start_year + dy` enumerate `[startYear, endYear]`
and months `dm + 1` enumerate 1–12. -/
def spec_isComplete (dirs : List String) (files : List (String × String))
    (hscode : String) (start_year end_year now_year now_month : Nat) : Bool :=
  decide (hscode ∈ dirs) &&
  (List.range (end_year + 1 - start_year)).all fun dy =>
    (List.range 12).all fun dm =>
      !decide (start_year + dy < now_year ∨ (start_year + dy = now_year ∧ dm + 1 ≤ now_month))
      || decide ((hscode, targetFilename (start_year + dy) (dm + 1)) ∈ files)

/-- A file in the staging (temp download) directory, with its creation and
modification ticks. -/
structure StagedFile where
  name : String
  ctime : Nat
  mtime : Nat
deriving DecidableEq

/-- Model of `get_latest_file(directory)` (lines 55–61): drop `.crdownload`/`.tmp`
partials, return the file with maximal `ctime` (Python `max` keeps the first
maximum). -/
def get_latest_file (files : List StagedFile) : Option StagedFile :=
  let cands := files.filter fun f =>
    !(strEndsWith f.name ".crdownload") && !(strEndsWith f.name ".tmp")
  match cands with
  | [] => none
  | f :: rest => some (rest.foldl (fun acc g => if acc.ctime < g.ctime then g else acc) f)

/-- The staging-directory poll timeout, `timeout = 60` (line 194). -/
def downloadTimeoutSecs : Nat := 60

/-- The poll loop body (lines 198–205): at each remaining tick, look at the
staging directory `d t`; accept the latest file only if its `mtime` is
strictly after `start_wait`, otherwise sleep one tick and retry. -/
def waitGo (d : Nat → List StagedFile) (start_wait : Nat) : Nat → Nat → Option StagedFile
  | 0, _ => none
  | fuel + 1, t =>
    match get_latest_file (d t) with
    | some f => if start_wait < f.mtime then some f else waitGo d start_wait fuel (t + 1)
    | none => waitGo d start_wait fuel (t + 1)

/-- The whole `while time.time() - start_wait < timeout` wait (lines 194–205),
polling from tick `start_wait` for `timeout` ticks. -/
def downloadWait (d : Nat → List StagedFile) (start_wait timeout : Nat) : Option StagedFile :=
  waitGo d start_wait timeout start_wait

/-- Model of `shutil.move(new_file, target_path)` (line 211): the staged file leaves the
staging directory (moved, not copied) and the canonical artifact appears. -/
def moveFile (staging : List StagedFile) (f : StagedFile)
    (canonical : List (String × String)) (target : String × String) :
    List StagedFile × List (String × String) :=
  (staging.erase f, target :: canonical)

/-- Outcome of one `(code, year, month)` request cycle: `saved` (file moved in),
`noData` (export button never appeared, lines 180–188), `downloadTimeout`
(poll loop expired, lines 213–214), `errored` (exception caught at line 216). -/
inductive PeriodOutcome
  | saved
  | noData
  | downloadTimeout
  | errored
deriving DecidableEq

/-- What the remote tool and browser do for one request: raise somewhere in the
navigation/form interaction, never show the export button, or start a download
into the staging directory (whose contents over time are `d`) with the wait
starting at tick `t0`. -/
inductive SessionStep where
  | raiseErr : SessionStep
  | noExportButton : SessionStep
  | exportClicked : (Nat → List StagedFile) → Nat → SessionStep

/-- The body of the inner `try` (lines 156–214) for one period:
`Except.error` is a raised exception; `.ok` carries the outcome and the
resulting artifact set. -/
def attempt_download (step : SessionStep) (files : List (String × String))
    (target : String × String) : Except String (PeriodOutcome × List (String × String)) :=
  match step with
  | .raiseErr => .error "session failure"
  | .noExportButton => .ok (.noData, files)
  | .exportClicked d t0 =>
    match downloadWait d t0 downloadTimeoutSecs with
    | some _ => .ok (.saved, target :: files)
    | none => .ok (.downloadTimeout, files)

/-- The inner `try`/`except Exception` (lines 156–219): an exception is caught,
logged, and the loop continues with the state unchanged. -/
def run_period_outcome (step : SessionStep) (files : List (String × String))
    (target : String × String) : PeriodOutcome × List (String × String) :=
  match attempt_download step files target with
  | .error _ => (.errored, files)
  | .ok r => r

/-- Whether the session outcome for a period ends with a reconciled save. -/
def periodSaves (sess : String → Nat → Nat → SessionStep) (c : String) (y m : Nat) : Bool :=
  match sess c y m with
  | .exportClicked d t0 => (downloadWait d t0 downloadTimeoutSecs).isSome
  | _ => false

/-- Observable driver state: the storage tree (`dirs`, `files`), the number of
network request cycles started (`net` counts each `driver.get(url)` at
line 157), and instrumentation traces of the codes and periods the loops
reached. -/
structure DriverState where
  dirs : List String
  files : List (String × String)
  net : Nat
  visitedCodes : List String
  visitedPeriods : List (String × Nat × Nat)
deriving DecidableEq

/-- One iteration of the month loop (lines 139–219): record the visit, skip
with no network interaction when the canonical artifact exists (lines 150–152),
otherwise start a request cycle and apply its outcome. -/
def runPeriod (sess : String → Nat → Nat → SessionStep) (code : String)
    (st : DriverState) (ym : Nat × Nat) : DriverState :=
  let st1 := { st with visitedPeriods := st.visitedPeriods ++ [(code, ym)] }
  if (code, targetFilename ym.1 ym.2) ∈ st1.files then st1
  else
    let r := run_period_outcome (sess code ym.1 ym.2) st1.files (code, targetFilename ym.1 ym.2)
    { st1 with files := r.2, net := st1.net + 1 }

/-- Model of `os.makedirs(hscode_dir)` when absent (lines 128–129). -/
def mkdirStep (st : DriverState) (code : String) : DriverState :=
  if code ∈ st.dirs then st else { st with dirs := code :: st.dirs }

/-- One iteration of the HS-code loop (lines 122–221): create the per-code
directory if missing (lines 128–129), skip the whole code when the completion
gate holds (lines 131–134), otherwise run every period of the grid. -/
def runCode (sess : String → Nat → Nat → SessionStep) (start_year now_year now_month : Nat)
    (st : DriverState) (code : String) : DriverState :=
  let st2 := mkdirStep { st with visitedCodes := st.visitedCodes ++ [code] } code
  if is_hscode_completed st2.dirs st2.files code start_year now_year now_year now_month then st2
  else (periodGrid start_year now_year now_month).foldl (runPeriod sess code) st2

/-- Model of `scrape_commodity_data(hscodes)` (lines 103–230): the code loop, with
`start_year = 2018` and `end_year = current_year` supplied as parameters. -/
def scrape_commodity_data (sess : String → Nat → Nat → SessionStep)
    (start_year now_year now_month : Nat) (codes : List String) (st : DriverState) :
    DriverState :=
  codes.foldl (runCode sess start_year now_year now_month) st

/-- A code is "settled" for a session on an artifact set: every grid period
either already has its artifact or cannot save one (its deterministic session
outcome is not a reconciled export). -/
def SettledFor (sess : String → Nat → Nat → SessionStep) (sy ny nm : Nat)
    (files : List (String × String)) (c : String) : Prop :=
  ∀ ym ∈ periodGrid sy ny nm,
    (c, targetFilename ym.1 ym.2) ∈ files ∨ periodSaves sess c ym.1 ym.2 = false

/-- A code is "covered" on an artifact set: every grid period has its artifact. -/
def CoveredFor (sy ny nm : Nat) (files : List (String × String)) (c : String) : Prop :=
  ∀ ym ∈ periodGrid sy ny nm, (c, targetFilename ym.1 ym.2) ∈ files

/-! ### Concrete fixtures for the testable properties -/

/-- The synthetic artifact of the spec's transform round-trip property: two
metadata rows, the header at row offset 2, one data row. -/
def c4grid : List (List (Option String)) :=
  [[some "Commodity-wise Import for HS Code", none, none, none, none],
   [none, none, none, none, none],
   [some "S.No.", some "Country", some "Apr-2020", some "May-2020", some "%Growth"],
   [some "1", some "Germany", some "12.5", some "", some "3%"]]

/-- An artifact whose single value column `Apr-2018` repeats the same
`(Country, Date)` in two data rows with different values. -/
def c6grid : List (List (Option String)) :=
  [[none], [none],
   [some "Country", some "Apr-2018"],
   [some "Germany", some "1.0"],
   [some "Germany", some "2.0"]]

def c6contents : String → List (List (Option String)) := fun _ => c6grid

def c6listing : List String := ["a.xlsx"]

def c6out : List LongRecord := [⟨"X", "C", mkRat 1 1, "Germany", "Apr-2018", "Export"⟩]

/-- An artifact with a year column but no `country` header cell. -/
def c7gridNoCountry : List (List (Option String)) :=
  [[none], [none], [some "S.No.", some "Apr-2020"], [some "1", some "2.0"]]

/-- An artifact below the minimum row count. -/
def c7gridShort : List (List (Option String)) := [[some "x"]]

/-- An artifact with a country column but no recognized value columns. -/
def c7gridNoYears : List (List (Option String)) :=
  [[none], [none], [some "S.No.", some "Country"], [some "1", some "Germany"]]

/-- A well-formed artifact processed alongside the malformed one. -/
def c7goodGrid : List (List (Option String)) :=
  [[none], [none], [some "Country", some "Apr-2020"], [some "Germany", some "2.0"]]

def c7contents : String → List (List (Option String)) :=
  fun f => if f = "bad.xlsx" then c7gridNoCountry else c7goodGrid

/-- Contents of `April_2019.xlsx`: the shared `Apr-2018` key with value 1. -/
def c10gridApril : List (List (Option String)) :=
  [[none], [none], [some "Country", some "Apr-2018"], [some "Germany", some "1.0"]]

/-- Contents of `August_2018.xlsx`: the same `(Country, Date)` key, value 2. -/
def c10gridAugust : List (List (Option String)) :=
  [[none], [none], [some "Country", some "Apr-2018"], [some "Germany", some "2.0"]]

def c10contents : String → List (List (Option String)) :=
  fun f =>
    if f = "April_2019.xlsx" then c10gridApril
    else if f = "August_2018.xlsx" then c10gridAugust
    else []

def c10listing : List String := ["August_2018.xlsx", "April_2019.xlsx"]

/-- A storage tree for the completion-gate comparison: the directory for code
`X` exists and holds January–March 2026 only. -/
def c3dirs : List String := ["X"]

def c3files : List (String × String) :=
  [("X", "January_2026.xlsx"), ("X", "February_2026.xlsx"), ("X", "March_2026.xlsx")]

def initDriverState : DriverState := ⟨[], [], 0, [], []⟩

/-- A session in which the export affordance never appears for any period. -/
def sessNoData : String → Nat → Nat → SessionStep := fun _ _ _ => SessionStep.noExportButton

/-- A session in which every period raises an exception. -/
def sessRaise : String → Nat → Nat → SessionStep := fun _ _ _ => SessionStep.raiseErr

/-- A staged download that is stable and fresh at every poll tick. -/
def stagedOk : StagedFile := ⟨"f.xlsx", 5, 5⟩

/-- A session in which every period exports and the download reconciles. -/
def sessSave : String → Nat → Nat → SessionStep :=
  fun _ _ _ => SessionStep.exportClicked (fun _ => [stagedOk]) 0

/-- A staging directory that never receives a file. -/
def emptyStaging : Nat → List StagedFile := fun _ => []

/-! ### Helper lemmas on the period grid and the completion gate -/

theorem takeWhile_congr_of_eq {α : Type} {p q : α → Bool} :
    ∀ {l : List α}, (∀ a ∈ l, p a = q a) → l.takeWhile p = l.takeWhile q := by
  intro l
  induction l with
  | nil => intro _; rfl
  | cons a l ih =>
    intro h
    rw [List.takeWhile_cons, List.takeWhile_cons, h a (List.mem_cons_self a l)]
    cases hq : q a with
    | false => rfl
    | true => rw [ih fun b hb => h b (List.mem_cons_of_mem a hb)]

theorem takeWhile_eq_self_of_all {α : Type} {p : α → Bool} :
    ∀ {l : List α}, (∀ a ∈ l, p a = true) → l.takeWhile p = l := by
  intro l
  induction l with
  | nil => intro _; rfl
  | cons a l ih =>
    intro h
    rw [List.takeWhile_cons, h a (List.mem_cons_self a l), if_pos rfl,
      ih fun b hb => h b (List.mem_cons_of_mem a hb)]

theorem mem_takeWhile_le_range' (c : Nat) :
    ∀ (k a m : Nat),
      (m ∈ (List.range' a k).takeWhile fun x => decide (x ≤ c)) ↔
        (a ≤ m ∧ m < a + k ∧ m ≤ c) := by
  intro k
  induction k with
  | zero =>
    intro a m
    simp only [List.range'_zero, List.takeWhile_nil, List.not_mem_nil, false_iff]
    omega
  | succ k ih =>
    intro a m
    rw [List.range'_succ, List.takeWhile_cons]
    by_cases h : a ≤ c
    · rw [decide_eq_true h, if_pos rfl, List.mem_cons, ih]
      omega
    · rw [decide_eq_false h, if_neg (by decide)]
      simp only [List.not_mem_nil, false_iff]
      omega

theorem mem_monthsUpTo (y ny nm m : Nat) :
    m ∈ monthsUpTo y ny nm ↔ (1 ≤ m ∧ m ≤ 12 ∧ (y = ny → m ≤ nm)) := by
  unfold monthsUpTo
  by_cases hy : y = ny
  · have hc : ∀ a ∈ List.range' 1 12, (decide ¬(y = ny ∧ nm < a)) = decide (a ≤ nm) := by
      intro a _
      apply decide_eq_decide.mpr
      rw [hy]
      constructor
      · intro h
        by_cases hna : nm < a
        · exact absurd ⟨rfl, hna⟩ h
        · omega
      · intro h hcon
        omega
    rw [takeWhile_congr_of_eq hc, mem_takeWhile_le_range']
    constructor
    · intro h; exact ⟨h.1, by omega, fun _ => h.2.2⟩
    · intro h; exact ⟨h.1, by omega, h.2.2 hy⟩
  · have hc : ∀ a ∈ List.range' 1 12, (decide ¬(y = ny ∧ nm < a)) = true := by
      intro a _; simp [hy]
    rw [takeWhile_eq_self_of_all hc, List.mem_range'_1]
    constructor
    · intro h; exact ⟨h.1, by omega, fun hcontra => absurd hcontra hy⟩
    · intro h; exact ⟨h.1, by omega⟩

theorem mem_periodGrid (sy ny nm y m : Nat) :
    (y, m) ∈ periodGrid sy ny nm ↔ (sy ≤ y ∧ y ≤ ny ∧ m ∈ monthsUpTo y ny nm) := by
  unfold periodGrid
  simp only [List.mem_flatMap, List.mem_map, List.mem_range'_1, Prod.mk.injEq]
  constructor
  · rintro ⟨a, ⟨ha1, ha2⟩, b, hb, hya, hmb⟩
    subst hya; subst hmb
    exact ⟨ha1, by omega, hb⟩
  · rintro ⟨h1, h2, hm⟩
    exact ⟨y, ⟨h1, by omega⟩, m, hm, rfl, rfl⟩

theorem is_hscode_completed_iff (dirs : List String) (files : List (String × String))
    (hscode : String) (sy ey ny nm : Nat) :
    is_hscode_completed dirs files hscode sy ey ny nm = true ↔
      (hscode ∈ dirs ∧ ∀ y m, sy ≤ y → y ≤ ey → 1 ≤ m → m ≤ 12 → (y = ny → m ≤ nm) →
        (hscode, targetFilename y m) ∈ files) := by
  unfold is_hscode_completed
  by_cases hd : hscode ∈ dirs
  · simp only [if_pos hd, List.all_eq_true, List.mem_range'_1, decide_eq_true_eq]
    constructor
    · intro h
      refine ⟨hd, fun y m h1 h2 h3 h4 h5 => ?_⟩
      exact h y ⟨h1, by omega⟩ m ((mem_monthsUpTo y ny nm m).mpr ⟨h3, h4, h5⟩)
    · rintro ⟨-, h⟩ y hy m hm
      obtain ⟨h3, h4, h5⟩ := (mem_monthsUpTo y ny nm m).mp hm
      exact h y m hy.1 (by omega) h3 h4 h5
  · simp [hd]

/-- The completion gate, at the driver's parameters (`end_year = now_year`,
lines 132 and 137), requires exactly the artifacts of the period grid. -/
theorem is_hscode_completed_grid (dirs : List String) (files : List (String × String))
    (hscode : String) (sy ny nm : Nat) :
    is_hscode_completed dirs files hscode sy ny ny nm = true ↔
      (hscode ∈ dirs ∧ ∀ ym ∈ periodGrid sy ny nm,
        (hscode, targetFilename ym.1 ym.2) ∈ files) := by
  rw [is_hscode_completed_iff]
  constructor
  · rintro ⟨hd, h⟩
    refine ⟨hd, fun ym hym => ?_⟩
    obtain ⟨h1, h2, hm⟩ := (mem_periodGrid sy ny nm ym.1 ym.2).mp hym
    obtain ⟨h3, h4, h5⟩ := (mem_monthsUpTo ym.1 ny nm ym.2).mp hm
    exact h ym.1 ym.2 h1 h2 h3 h4 h5
  · rintro ⟨hd, h⟩
    refine ⟨hd, fun y m h1 h2 h3 h4 h5 => ?_⟩
    exact h (y, m) ((mem_periodGrid sy ny nm y m).mpr
      ⟨h1, h2, (mem_monthsUpTo y ny nm m).mpr ⟨h3, h4, h5⟩⟩)

/-! ### C2: future-month exclusion -/

/-- C2 (amended): the period grid iterated by the crawl driver never contains
a month strictly in the future — every `(y, m)` in the grid satisfies
`y < now_year` or (`y = now_year` and `m ≤ now_month`) — and the oracle's
month enumeration obeys the same cutoff; but for `now = 2025-03`, the 2025
part of the grid is January **through March** (the current month is
included), not January–February only. -/
theorem future_month_theorem :
    (∀ sy ny nm y m, (y, m) ∈ periodGrid sy ny nm → (y < ny ∨ (y = ny ∧ m ≤ nm)))
  ∧ (∀ y ny nm m, m ∈ monthsUpTo y ny nm → (y = ny → m ≤ nm))
  ∧ ((periodGrid 2018 2025 3).filter (fun ym => ym.1 == 2025) =
      [(2025, 1), (2025, 2), (2025, 3)]) := by
  refine ⟨?_, ?_, by decide⟩
  · intro sy ny nm y m hmem
    obtain ⟨h1, h2, hm⟩ := (mem_periodGrid sy ny nm y m).mp hmem
    obtain ⟨-, -, h5⟩ := (mem_monthsUpTo y ny nm m).mp hm
    by_cases hy : y = ny
    · exact Or.inr ⟨hy, h5 hy⟩
    · exact Or.inl (by omega)
  · intro y ny nm m hm
    exact ((mem_monthsUpTo y ny nm m).mp hm).2.2

/-- C2 counterexample: at `now = 2025-03` the driver's grid does contain
March 2025, contradicting "contains only January and February". -/
theorem future_month_counterexample : (2025, 3) ∈ periodGrid 2018 2025 3 := by decide

/-- C2 witness: the no-future-month bound applied at a concrete grid member. -/
theorem future_month_witness :
    ((2024, 1) ∈ periodGrid 2024 2024 5) ∧ (2024 < 2024 ∨ (2024 = 2024 ∧ 1 ≤ 5)) :=
  ⟨by decide, future_month_theorem.1 2024 2024 5 2024 1 (by decide)⟩

/-! ### C3: completion gate -/

/-- C3 (amended): `is_hscode_completed` returns `false` (without raising) when
the code's directory does not exist; otherwise it returns `true` iff every
expected artifact exists, where the expected months are all 12 for any year
other than the current one — **including years strictly beyond the current
year** — and months up to the current month for the current year. -/
theorem completion_gate_theorem :
    (∀ (dirs : List String) (files : List (String × String)) (hscode : String)
        (sy ey ny nm : Nat), hscode ∉ dirs →
        is_hscode_completed dirs files hscode sy ey ny nm = false)
  ∧ (∀ (dirs : List String) (files : List (String × String)) (hscode : String)
        (sy ey ny nm : Nat),
        is_hscode_completed dirs files hscode sy ey ny nm = true ↔
          (hscode ∈ dirs ∧ ∀ y m, sy ≤ y → y ≤ ey → 1 ≤ m → m ≤ 12 → (y = ny → m ≤ nm) →
            (hscode, targetFilename y m) ∈ files)) := by
  constructor
  · intro dirs files hscode sy ey ny nm hd
    unfold is_hscode_completed
    simp [hd]
  · intro dirs files hscode sy ey ny nm
    exact is_hscode_completed_iff dirs files hscode sy ey ny nm

/-- C3 counterexample: for a range ending in a future year (`[2026, 2026]`
with `now = 2025-03`), every month of 2026 is in the future, so the claim's
criterion ("for every pair … with month not in the future the artifact
exists") holds vacuously for a tree holding January–March 2026; yet the code
returns `false`, because the future-month break fires only when
`year == now.year`. -/
theorem completion_gate_counterexample :
    is_hscode_completed c3dirs c3files "X" 2026 2026 2025 3 = false ∧
    spec_isComplete c3dirs c3files "X" 2026 2026 2025 3 = true := by
  exact ⟨by decide, by decide⟩

/-- C3 witness: a nonexistent code directory yields `false`. -/
theorem completion_gate_witness :
    "Y" ∉ c3dirs ∧ is_hscode_completed c3dirs c3files "Y" 2018 2025 2025 3 = false :=
  ⟨by decide, completion_gate_theorem.1 c3dirs c3files "Y" 2018 2025 2025 3 (by decide)⟩

/-! ### Helper lemmas on the crawl driver loop -/

theorem run_period_outcome_noExport (files : List (String × String)) (target : String × String) :
    run_period_outcome SessionStep.noExportButton files target = (PeriodOutcome.noData, files) :=
  rfl

theorem run_period_outcome_raise (files : List (String × String)) (target : String × String) :
    run_period_outcome SessionStep.raiseErr files target = (PeriodOutcome.errored, files) :=
  rfl

theorem run_period_outcome_export_none (d : Nat → List StagedFile) (t0 : Nat)
    (files : List (String × String)) (target : String × String)
    (hd : downloadWait d t0 downloadTimeoutSecs = none) :
    run_period_outcome (SessionStep.exportClicked d t0) files target =
      (PeriodOutcome.downloadTimeout, files) := by
  simp [run_period_outcome, attempt_download, hd]

theorem run_period_outcome_export_some (d : Nat → List StagedFile) (t0 : Nat)
    (files : List (String × String)) (target : String × String) (f : StagedFile)
    (hd : downloadWait d t0 downloadTimeoutSecs = some f) :
    run_period_outcome (SessionStep.exportClicked d t0) files target =
      (PeriodOutcome.saved, target :: files) := by
  simp [run_period_outcome, attempt_download, hd]

theorem runPeriod_files (sess : String → Nat → Nat → SessionStep) (c : String)
    (st : DriverState) (ym : Nat × Nat) :
    (runPeriod sess c st ym).files =
      if (c, targetFilename ym.1 ym.2) ∈ st.files then st.files
      else if periodSaves sess c ym.1 ym.2 then (c, targetFilename ym.1 ym.2) :: st.files
      else st.files := by
  by_cases hm : (c, targetFilename ym.1 ym.2) ∈ st.files
  · simp [runPeriod, hm]
  · rw [if_neg hm]
    cases hs : sess c ym.1 ym.2 with
    | raiseErr => simp [runPeriod, hm, periodSaves, hs, run_period_outcome, attempt_download]
    | noExportButton => simp [runPeriod, hm, periodSaves, hs, run_period_outcome, attempt_download]
    | exportClicked d t0 =>
      cases hd : downloadWait d t0 downloadTimeoutSecs with
      | none => simp [runPeriod, hm, periodSaves, hs, hd, run_period_outcome, attempt_download]
      | some f => simp [runPeriod, hm, periodSaves, hs, hd, run_period_outcome, attempt_download]

theorem runPeriod_net (sess : String → Nat → Nat → SessionStep) (c : String)
    (st : DriverState) (ym : Nat × Nat) :
    (runPeriod sess c st ym).net =
      if (c, targetFilename ym.1 ym.2) ∈ st.files then st.net else st.net + 1 := by
  by_cases hm : (c, targetFilename ym.1 ym.2) ∈ st.files <;> simp [runPeriod, hm]

theorem runPeriod_visitedPeriods (sess : String → Nat → Nat → SessionStep) (c : String)
    (st : DriverState) (ym : Nat × Nat) :
    (runPeriod sess c st ym).visitedPeriods = st.visitedPeriods ++ [(c, ym)] := by
  by_cases hm : (c, targetFilename ym.1 ym.2) ∈ st.files <;> simp [runPeriod, hm]

theorem runPeriod_visitedCodes (sess : String → Nat → Nat → SessionStep) (c : String)
    (st : DriverState) (ym : Nat × Nat) :
    (runPeriod sess c st ym).visitedCodes = st.visitedCodes := by
  by_cases hm : (c, targetFilename ym.1 ym.2) ∈ st.files <;> simp [runPeriod, hm]

theorem runPeriod_skip (sess : String → Nat → Nat → SessionStep) (c : String)
    (st : DriverState) (y m : Nat)
    (hm : (c, targetFilename y m) ∈ st.files) :
    runPeriod sess c st (y, m) =
      { st with visitedPeriods := st.visitedPeriods ++ [(c, (y, m))] } := by
  simp [runPeriod, hm]

theorem runPeriod_files_subset (sess : String → Nat → Nat → SessionStep) (c : String)
    (st : DriverState) (ym : Nat × Nat) :
    st.files ⊆ (runPeriod sess c st ym).files := by
  rw [runPeriod_files]
  split
  · exact List.Subset.refl _
  · split
    · exact List.subset_cons_self _ _
    · exact List.Subset.refl _

theorem foldl_runPeriod_files_subset (sess : String → Nat → Nat → SessionStep) (c : String) :
    ∀ (L : List (Nat × Nat)) (st : DriverState),
      st.files ⊆ (L.foldl (runPeriod sess c) st).files := by
  intro L
  induction L with
  | nil => intro st; exact List.Subset.refl _
  | cons ym L ih =>
    intro st
    rw [List.foldl_cons]
    exact (runPeriod_files_subset sess c st ym).trans (ih _)

theorem foldl_runPeriod_visited (sess : String → Nat → Nat → SessionStep) (c : String) :
    ∀ (L : List (Nat × Nat)) (st : DriverState),
      (L.foldl (runPeriod sess c) st).visitedPeriods =
        st.visitedPeriods ++ L.map (fun ym => (c, ym)) := by
  intro L
  induction L with
  | nil => intro st; simp
  | cons ym L ih =>
    intro st
    rw [List.foldl_cons, ih, runPeriod_visitedPeriods]
    simp

theorem foldl_runPeriod_visitedCodes (sess : String → Nat → Nat → SessionStep) (c : String) :
    ∀ (L : List (Nat × Nat)) (st : DriverState),
      (L.foldl (runPeriod sess c) st).visitedCodes = st.visitedCodes := by
  intro L
  induction L with
  | nil => intro st; rfl
  | cons ym L ih =>
    intro st
    rw [List.foldl_cons, ih, runPeriod_visitedCodes]

theorem runPeriod_self_settled (sess : String → Nat → Nat → SessionStep) (c : String)
    (st : DriverState) (ym : Nat × Nat) :
    (c, targetFilename ym.1 ym.2) ∈ (runPeriod sess c st ym).files ∨
      periodSaves sess c ym.1 ym.2 = false := by
  rw [runPeriod_files]
  by_cases hm : (c, targetFilename ym.1 ym.2) ∈ st.files
  · rw [if_pos hm]; exact Or.inl hm
  · rw [if_neg hm]
    by_cases hs : periodSaves sess c ym.1 ym.2
    · rw [if_pos hs]; exact Or.inl (List.mem_cons_self _ _)
    · rw [if_neg hs]; exact Or.inr (by simpa using hs)

theorem foldl_runPeriod_settled (sess : String → Nat → Nat → SessionStep) (c : String) :
    ∀ (L : List (Nat × Nat)) (st : DriverState), ∀ ym ∈ L,
      (c, targetFilename ym.1 ym.2) ∈ (L.foldl (runPeriod sess c) st).files ∨
        periodSaves sess c ym.1 ym.2 = false := by
  intro L
  induction L with
  | nil => intro st ym h; exact absurd h (List.not_mem_nil ym)
  | cons ym0 L ih =>
    intro st ym hym
    rw [List.foldl_cons]
    rcases List.mem_cons.mp hym with h | h
    · subst h
      rcases runPeriod_self_settled sess c st ym with hmem | hns
      · exact Or.inl (foldl_runPeriod_files_subset sess c L _ hmem)
      · exact Or.inr hns
    · exact ih _ ym h

theorem foldl_runPeriod_files_id (sess : String → Nat → Nat → SessionStep) (c : String) :
    ∀ (L : List (Nat × Nat)) (st : DriverState),
      (∀ ym ∈ L, (c, targetFilename ym.1 ym.2) ∈ st.files ∨
        periodSaves sess c ym.1 ym.2 = false) →
      (L.foldl (runPeriod sess c) st).files = st.files := by
  intro L
  induction L with
  | nil => intro st _; rfl
  | cons ym0 L ih =>
    intro st h
    have h0 := h ym0 (List.mem_cons_self _ _)
    have hf : (runPeriod sess c st ym0).files = st.files := by
      rw [runPeriod_files]
      by_cases hm : (c, targetFilename ym0.1 ym0.2) ∈ st.files
      · rw [if_pos hm]
      · rcases h0 with hmem | hns
        · exact absurd hmem hm
        · rw [if_neg hm, hns, if_neg Bool.false_ne_true]
    have hrest := ih (runPeriod sess c st ym0)
      (fun ym hym => by rw [hf]; exact h ym (List.mem_cons_of_mem _ hym))
    rw [List.foldl_cons, hrest, hf]

theorem mkdirStep_files (st : DriverState) (code : String) :
    (mkdirStep st code).files = st.files := by
  unfold mkdirStep; split <;> rfl

theorem mkdirStep_net (st : DriverState) (code : String) :
    (mkdirStep st code).net = st.net := by
  unfold mkdirStep; split <;> rfl

theorem mkdirStep_visitedCodes (st : DriverState) (code : String) :
    (mkdirStep st code).visitedCodes = st.visitedCodes := by
  unfold mkdirStep; split <;> rfl

theorem mkdirStep_visitedPeriods (st : DriverState) (code : String) :
    (mkdirStep st code).visitedPeriods = st.visitedPeriods := by
  unfold mkdirStep; split <;> rfl

theorem mkdirStep_mem_dirs (st : DriverState) (code : String) :
    code ∈ (mkdirStep st code).dirs := by
  unfold mkdirStep
  split
  · assumption
  · exact List.mem_cons_self _ _

theorem runCode_files_subset (sess : String → Nat → Nat → SessionStep) (sy ny nm : Nat)
    (st : DriverState) (code : String) :
    st.files ⊆ (runCode sess sy ny nm st code).files := by
  unfold runCode
  dsimp only
  split
  · intro a ha; simpa [mkdirStep_files] using ha
  · intro a ha
    refine foldl_runPeriod_files_subset sess code _ _ ?_
    simpa [mkdirStep_files] using ha

theorem runCode_settled (sess : String → Nat → Nat → SessionStep) (sy ny nm : Nat)
    (st : DriverState) (code : String) :
    SettledFor sess sy ny nm (runCode sess sy ny nm st code).files code := by
  unfold runCode
  dsimp only
  split
  · next hg =>
    intro ym hym
    rw [mkdirStep_files] at hg ⊢
    exact Or.inl (((is_hscode_completed_grid _ _ _ _ _ _).mp hg).2 ym hym)
  · intro ym hym
    exact foldl_runPeriod_settled sess code _ _ ym hym

theorem runCode_files_id_of_settled (sess : String → Nat → Nat → SessionStep) (sy ny nm : Nat)
    (st : DriverState) (code : String)
    (h : SettledFor sess sy ny nm st.files code) :
    (runCode sess sy ny nm st code).files = st.files := by
  unfold runCode
  dsimp only
  split
  · rw [mkdirStep_files]
  · rw [foldl_runPeriod_files_id sess code _ _ ?_, mkdirStep_files]
    intro ym hym
    rw [mkdirStep_files]
    exact h ym hym

theorem runCode_skip_of_covered (sess : String → Nat → Nat → SessionStep) (sy ny nm : Nat)
    (st : DriverState) (code : String)
    (h : CoveredFor sy ny nm st.files code) :
    (runCode sess sy ny nm st code).files = st.files ∧
      (runCode sess sy ny nm st code).net = st.net := by
  unfold runCode
  dsimp only
  rw [if_pos ?hg]
  case hg =>
    apply (is_hscode_completed_grid _ _ _ _ _ _).mpr
    refine ⟨mkdirStep_mem_dirs _ _, ?_⟩
    intro ym hym
    rw [mkdirStep_files]
    exact h ym hym
  exact ⟨mkdirStep_files _ _, mkdirStep_net _ _⟩

theorem runCode_visitedCodes (sess : String → Nat → Nat → SessionStep) (sy ny nm : Nat)
    (st : DriverState) (code : String) :
    (runCode sess sy ny nm st code).visitedCodes = st.visitedCodes ++ [code] := by
  unfold runCode
  dsimp only
  split
  · rw [mkdirStep_visitedCodes]
  · rw [foldl_runPeriod_visitedCodes, mkdirStep_visitedCodes]

theorem scrape_files_subset (sess : String → Nat → Nat → SessionStep) (sy ny nm : Nat) :
    ∀ (codes : List String) (st : DriverState),
      st.files ⊆ (scrape_commodity_data sess sy ny nm codes st).files := by
  intro codes
  induction codes with
  | nil => intro st; exact List.Subset.refl _
  | cons c codes ih =>
    intro st
    exact (runCode_files_subset sess sy ny nm st c).trans (ih _)

theorem scrape_settled (sess : String → Nat → Nat → SessionStep) (sy ny nm : Nat) :
    ∀ (codes : List String) (st : DriverState) (c : String), c ∈ codes →
      SettledFor sess sy ny nm (scrape_commodity_data sess sy ny nm codes st).files c := by
  intro codes
  induction codes with
  | nil => intro st c h; exact absurd h (List.not_mem_nil c)
  | cons c0 codes ih =>
    intro st c hc
    rcases List.mem_cons.mp hc with h | h
    · subst h
      intro ym hym
      rcases runCode_settled sess sy ny nm st c ym hym with hmem | hns
      · exact Or.inl (scrape_files_subset sess sy ny nm codes _ hmem)
      · exact Or.inr hns
    · exact ih _ c h

theorem scrape_files_id_of_settled (sess : String → Nat → Nat → SessionStep) (sy ny nm : Nat) :
    ∀ (codes : List String) (st : DriverState),
      (∀ c ∈ codes, SettledFor sess sy ny nm st.files c) →
      (scrape_commodity_data sess sy ny nm codes st).files = st.files := by
  intro codes
  induction codes with
  | nil => intro st _; rfl
  | cons c0 codes ih =>
    intro st h
    have hf : (runCode sess sy ny nm st c0).files = st.files :=
      runCode_files_id_of_settled sess sy ny nm st c0 (h c0 (List.mem_cons_self _ _))
    have hrest := ih (runCode sess sy ny nm st c0)
      (fun c hc => by rw [hf]; exact h c (List.mem_cons_of_mem _ hc))
    show (scrape_commodity_data sess sy ny nm codes _).files = st.files
    rw [hrest, hf]

theorem scrape_skip_of_covered (sess : String → Nat → Nat → SessionStep) (sy ny nm : Nat) :
    ∀ (codes : List String) (st : DriverState),
      (∀ c ∈ codes, CoveredFor sy ny nm st.files c) →
      (scrape_commodity_data sess sy ny nm codes st).files = st.files ∧
        (scrape_commodity_data sess sy ny nm codes st).net = st.net := by
  intro codes
  induction codes with
  | nil => intro st _; exact ⟨rfl, rfl⟩
  | cons c0 codes ih =>
    intro st h
    obtain ⟨hf, hn⟩ :=
      runCode_skip_of_covered sess sy ny nm st c0 (h c0 (List.mem_cons_self _ _))
    have hrest := ih (runCode sess sy ny nm st c0)
      (fun c hc => by rw [hf]; exact h c (List.mem_cons_of_mem _ hc))
    refine ⟨?_, ?_⟩
    · show (scrape_commodity_data sess sy ny nm codes _).files = st.files
      rw [hrest.1, hf]
    · show (scrape_commodity_data sess sy ny nm codes _).net = st.net
      rw [hrest.2, hn]

/-! ### C1: idempotent resumability -/

/-- C1 (amended): after a completed run, a second run of the driver over the
same catalog, storage tree, and deterministic environment produces an
identical artifact set; **if the first run left an artifact for every grid
period of every code**, the second run performs zero network interactions;
and every `(code, year, month)` whose canonical artifact path already exists
is skipped with no network interaction and no download task.  (Without the
coverage proviso the second run does re-contact the remote for periods that
ended `NoData`/`Failed` — see the counterexample.) -/
theorem crawl_second_run_theorem (sess : String → Nat → Nat → SessionStep)
    (sy ny nm : Nat) (codes : List String) (st0 : DriverState) :
    (scrape_commodity_data sess sy ny nm codes
        (scrape_commodity_data sess sy ny nm codes st0)).files =
      (scrape_commodity_data sess sy ny nm codes st0).files
  ∧ ((∀ c ∈ codes, ∀ ym ∈ periodGrid sy ny nm,
        (c, targetFilename ym.1 ym.2) ∈ (scrape_commodity_data sess sy ny nm codes st0).files) →
      (scrape_commodity_data sess sy ny nm codes
          (scrape_commodity_data sess sy ny nm codes st0)).net =
        (scrape_commodity_data sess sy ny nm codes st0).net)
  ∧ (∀ (c : String) (y m : Nat) (st : DriverState),
        (c, targetFilename y m) ∈ st.files →
        runPeriod sess c st (y, m) =
          { st with visitedPeriods := st.visitedPeriods ++ [(c, (y, m))] }) := by
  refine ⟨?_, ?_, ?_⟩
  · exact scrape_files_id_of_settled sess sy ny nm codes _
      (fun c hc => scrape_settled sess sy ny nm codes st0 c hc)
  · intro hcov
    exact (scrape_skip_of_covered sess sy ny nm codes _ (fun c hc ym hym => hcov c hc ym hym)).2
  · intro c y m st hm
    exact runPeriod_skip sess c st y m hm

/-- C1 counterexample: with a session whose export affordance never appears
(every period `NoData`), a completed first run saves nothing, and the second
run performs as many network request cycles again — not zero. -/
theorem crawl_second_run_counterexample :
    (scrape_commodity_data sessNoData 2024 2024 1 ["X"]
        (scrape_commodity_data sessNoData 2024 2024 1 ["X"] initDriverState)).net ≠
      (scrape_commodity_data sessNoData 2024 2024 1 ["X"] initDriverState).net := by
  decide

/-- C1 witness: with a session that exports and reconciles every period, the
first run covers the grid and the second run is free of network interaction. -/
theorem crawl_second_run_witness :
    (scrape_commodity_data sessSave 2024 2024 1 ["X"]
        (scrape_commodity_data sessSave 2024 2024 1 ["X"] initDriverState)).net =
      (scrape_commodity_data sessSave 2024 2024 1 ["X"] initDriverState).net ∧
    ("X", targetFilename 2024 1) ∈
      (scrape_commodity_data sessSave 2024 2024 1 ["X"] initDriverState).files ∧
    runPeriod sessSave "X" (scrape_commodity_data sessSave 2024 2024 1 ["X"] initDriverState)
        (2024, 1) =
      { (scrape_commodity_data sessSave 2024 2024 1 ["X"] initDriverState) with
          visitedPeriods :=
            (scrape_commodity_data sessSave 2024 2024 1 ["X"] initDriverState).visitedPeriods ++
              [("X", (2024, 1))] } := by
  refine ⟨?_, by decide, ?_⟩
  · exact (crawl_second_run_theorem sessSave 2024 2024 1 ["X"] initDriverState).2.1 (by decide)
  · exact (crawl_second_run_theorem sessSave 2024 2024 1 ["X"] initDriverState).2.2 "X" 2024 1 _
      (by decide)

/-! ### C8: failure isolation -/

/-- C8: the driver's per-period `try`/`except` isolates failures: for **any**
session behaviour — including one that raises an exception on every request —
the code loop still visits every catalog code, and the period loop of a
non-skipped code still visits every grid period exactly once, in order. -/
theorem failure_isolation_theorem (sess : String → Nat → Nat → SessionStep)
    (sy ny nm : Nat) (codes : List String) (st : DriverState) :
    (scrape_commodity_data sess sy ny nm codes st).visitedCodes =
      st.visitedCodes ++ codes
  ∧ (∀ (code : String) (st' : DriverState),
      is_hscode_completed (if code ∈ st'.dirs then st'.dirs else code :: st'.dirs)
          st'.files code sy ny ny nm = false →
      (runCode sess sy ny nm st' code).visitedPeriods =
        st'.visitedPeriods ++ (periodGrid sy ny nm).map (fun ym => (code, ym))) := by
  constructor
  · induction codes generalizing st with
    | nil => simp [scrape_commodity_data]
    | cons c0 codes ih =>
      show (scrape_commodity_data sess sy ny nm codes _).visitedCodes = _
      rw [ih, runCode_visitedCodes]
      simp
  · intro code st' hg
    unfold runCode
    dsimp only
    rw [if_neg ?hng]
    case hng =>
      have : (mkdirStep { st' with visitedCodes := st'.visitedCodes ++ [code] } code).dirs =
          if code ∈ st'.dirs then st'.dirs else code :: st'.dirs := by
        unfold mkdirStep
        by_cases hd : code ∈ st'.dirs <;> simp [hd]
      rw [this, mkdirStep_files]
      simp [hg]
    rw [foldl_runPeriod_visited, mkdirStep_visitedPeriods]

/-- C8 witness: with a session raising on every period, every period of the
grid is still visited. -/
theorem failure_isolation_witness :
    is_hscode_completed (if "X" ∈ initDriverState.dirs then initDriverState.dirs
        else "X" :: initDriverState.dirs) initDriverState.files "X" 2024 2024 2024 2 = false ∧
    (runCode sessRaise 2024 2024 2 initDriverState "X").visitedPeriods =
      initDriverState.visitedPeriods ++
        (periodGrid 2024 2024 2).map (fun ym => ("X", ym)) :=
  ⟨by decide,
    (failure_isolation_theorem sessRaise 2024 2024 2 [] initDriverState).2 "X" initDriverState
      (by decide)⟩

/-! ### Helper lemmas on the download reconciler -/

theorem foldl_ctime_max_mem :
    ∀ (rest : List StagedFile) (f : StagedFile),
      rest.foldl (fun acc g => if acc.ctime < g.ctime then g else acc) f ∈ f :: rest := by
  intro rest
  induction rest with
  | nil => intro f; exact List.mem_cons_self _ _
  | cons g t ih =>
    intro f
    rw [List.foldl_cons]
    rcases List.mem_cons.mp (ih (if f.ctime < g.ctime then g else f)) with h | h
    · rw [h]
      by_cases hc : f.ctime < g.ctime
      · rw [if_pos hc]; exact List.mem_cons_of_mem _ (List.mem_cons_self _ _)
      · rw [if_neg hc]; exact List.mem_cons_self _ _
    · exact List.mem_cons_of_mem _ (List.mem_cons_of_mem _ h)

theorem get_latest_file_spec (files : List StagedFile) (f : StagedFile)
    (h : get_latest_file files = some f) :
    strEndsWith f.name ".crdownload" = false ∧ strEndsWith f.name ".tmp" = false := by
  unfold get_latest_file at h
  dsimp only at h
  cases hc : files.filter
      (fun g => !(strEndsWith g.name ".crdownload") && !(strEndsWith g.name ".tmp")) with
  | nil => rw [hc] at h; simp at h
  | cons f0 rest =>
    rw [hc] at h
    have hf : rest.foldl (fun acc g => if acc.ctime < g.ctime then g else acc) f0 = f := by
      simpa using h
    have hmem : f ∈ f0 :: rest := by
      rw [← hf]; exact foldl_ctime_max_mem rest f0
    rw [← hc] at hmem
    have hp := (List.mem_filter.mp hmem).2
    simp only [Bool.and_eq_true, Bool.not_eq_true'] at hp
    exact hp

theorem waitGo_spec (d : Nat → List StagedFile) (t0 : Nat) :
    ∀ (fuel t : Nat) (f : StagedFile), waitGo d t0 fuel t = some f →
      strEndsWith f.name ".crdownload" = false ∧ strEndsWith f.name ".tmp" = false ∧
        t0 < f.mtime := by
  intro fuel
  induction fuel with
  | zero => intro t f h; exact absurd h (by simp [waitGo])
  | succ fuel ih =>
    intro t f h
    cases hg : get_latest_file (d t) with
    | none =>
      rw [waitGo, hg] at h
      exact ih _ f h
    | some f' =>
      rw [waitGo, hg] at h
      dsimp only at h
      by_cases hmt : t0 < f'.mtime
      · rw [if_pos hmt] at h
        have hf := Option.some.inj h
        subst hf
        obtain ⟨h1, h2⟩ := get_latest_file_spec (d t) f' hg
        exact ⟨h1, h2, hmt⟩
      · rw [if_neg hmt] at h
        exact ih _ f h

theorem downloadWait_spec (d : Nat → List StagedFile) (t0 T : Nat) (f : StagedFile)
    (h : downloadWait d t0 T = some f) :
    strEndsWith f.name ".crdownload" = false ∧ strEndsWith f.name ".tmp" = false ∧
      t0 < f.mtime :=
  waitGo_spec d t0 T t0 f h

theorem moveFile_spec (staging : List StagedFile) (f : StagedFile)
    (canonical : List (String × String)) (target : String × String) (hf : f ∈ staging) :
    (moveFile staging f canonical target).1.length + 1 = staging.length ∧
      target ∈ (moveFile staging f canonical target).2 := by
  constructor
  · show (staging.erase f).length + 1 = staging.length
    rw [List.length_erase_of_mem hf]
    have := List.length_pos_of_mem hf
    omega
  · exact List.mem_cons_self _ _

/-! ### C5: NoData versus failure -/

/-- C5: a period whose export affordance never appears ends as `NoData` — the
request body returns normally (`Except.ok`, no error surfaced) with the
artifact set unchanged (no file written) — while a staging-directory download
timeout ends as `downloadTimeout` (the failed-period outcome), also with no
file written; the two outcomes are distinct, and `NoData` is not the errored
outcome. -/
theorem nodata_vs_failure_theorem :
    (∀ (files : List (String × String)) (target : String × String),
        attempt_download SessionStep.noExportButton files target =
          Except.ok (PeriodOutcome.noData, files))
  ∧ (∀ (files : List (String × String)) (target : String × String),
        run_period_outcome SessionStep.noExportButton files target =
          (PeriodOutcome.noData, files))
  ∧ (∀ (d : Nat → List StagedFile) (t0 : Nat) (files : List (String × String))
        (target : String × String), downloadWait d t0 downloadTimeoutSecs = none →
        run_period_outcome (SessionStep.exportClicked d t0) files target =
          (PeriodOutcome.downloadTimeout, files))
  ∧ PeriodOutcome.noData ≠ PeriodOutcome.downloadTimeout
  ∧ PeriodOutcome.noData ≠ PeriodOutcome.errored := by
  refine ⟨fun _ _ => rfl, fun _ _ => rfl, ?_, by decide, by decide⟩
  intro d t0 files target hd
  exact run_period_outcome_export_none d t0 files target hd

/-- C5 witness: a staging directory that never receives a file times out into
the failed-period outcome with the artifact set unchanged. -/
theorem nodata_vs_failure_witness :
    downloadWait emptyStaging 5 downloadTimeoutSecs = none ∧
    run_period_outcome (SessionStep.exportClicked emptyStaging 5) [] ("X", "f.xlsx") =
      (PeriodOutcome.downloadTimeout, []) :=
  ⟨by decide,
    nodata_vs_failure_theorem.2.2.1 emptyStaging 5 [] ("X", "f.xlsx") (by decide)⟩

/-! ### C9: reconciler candidate filtering and relocation -/

/-- C9: the poll loop accepts a staged file only if its name ends in neither
`.crdownload` nor `.tmp` and its modification time is strictly after the
request timestamp; a qualifying file is moved — the staging directory shrinks
by one entry and the canonical target appears — not copied; if no qualifying
file appears within the timeout the period's outcome is the failed
`downloadTimeout`, and the period loop records the visit and continues
regardless. -/
theorem reconciler_theorem :
    (∀ (d : Nat → List StagedFile) (t0 T : Nat) (f : StagedFile),
        downloadWait d t0 T = some f →
          strEndsWith f.name ".crdownload" = false ∧ strEndsWith f.name ".tmp" = false ∧
            t0 < f.mtime)
  ∧ (∀ (staging : List StagedFile) (f : StagedFile) (canonical : List (String × String))
        (target : String × String), f ∈ staging →
        (moveFile staging f canonical target).1.length + 1 = staging.length ∧
          target ∈ (moveFile staging f canonical target).2)
  ∧ (∀ (d : Nat → List StagedFile) (t0 : Nat) (files : List (String × String))
        (target : String × String), downloadWait d t0 downloadTimeoutSecs = none →
        run_period_outcome (SessionStep.exportClicked d t0) files target =
          (PeriodOutcome.downloadTimeout, files))
  ∧ (∀ (sess : String → Nat → Nat → SessionStep) (c : String) (st : DriverState)
        (ym : Nat × Nat),
        (runPeriod sess c st ym).visitedPeriods = st.visitedPeriods ++ [(c, ym)]) := by
  refine ⟨?_, ?_, ?_, ?_⟩
  · exact fun d t0 T f h => downloadWait_spec d t0 T f h
  · exact fun staging f canonical target hf => moveFile_spec staging f canonical target hf
  · exact fun d t0 files target hd => run_period_outcome_export_none d t0 files target hd
  · exact fun sess c st ym => runPeriod_visitedPeriods sess c st ym

/-- C9 witness: a concrete fresh staged file is accepted and satisfies the
filter conditions; moving it empties the staging directory and creates the
canonical artifact; an empty staging directory times out into the failed
outcome. -/
theorem reconciler_witness :
    downloadWait (fun _ => [stagedOk]) 0 downloadTimeoutSecs = some stagedOk ∧
    (strEndsWith stagedOk.name ".crdownload" = false ∧
      strEndsWith stagedOk.name ".tmp" = false ∧ 0 < stagedOk.mtime) ∧
    stagedOk ∈ [stagedOk] ∧
    ((moveFile [stagedOk] stagedOk [] ("X", "January_2024.xlsx")).1.length + 1 =
        [stagedOk].length ∧
      ("X", "January_2024.xlsx") ∈ (moveFile [stagedOk] stagedOk [] ("X", "January_2024.xlsx")).2) ∧
    downloadWait emptyStaging 0 downloadTimeoutSecs = none ∧
    run_period_outcome (SessionStep.exportClicked emptyStaging 0) [] ("X", "f.xlsx") =
      (PeriodOutcome.downloadTimeout, []) :=
  ⟨by decide,
    reconciler_theorem.1 (fun _ => [stagedOk]) 0 downloadTimeoutSecs stagedOk (by decide),
    by decide,
    reconciler_theorem.2.1 [stagedOk] stagedOk [] ("X", "January_2024.xlsx") (by decide),
    by decide,
    reconciler_theorem.2.2.1 emptyStaging 0 [] ("X", "f.xlsx") (by decide)⟩

/-! ### C4: transformer round trip on the synthetic artifact -/

/-- C4: on the synthetic artifact (two metadata rows, header
`["S.No.","Country","Apr-2020","May-2020","%Growth"]` at offset 2, one data
row `["1","Germany","12.5","","3%"]`) the transformer emits exactly one
record, `(Country = "Germany", Date = "Apr-2020", Value = 25/2 = 12.5)`; the
empty `May-2020` cell and the `%Growth` column produce no records. -/
theorem transformer_round_trip :
    process_monthly_file c4grid "85444999" "Insulated Wire" =
      some [{ hscod := "85444999", commodity := "Insulated Wire", value := mkRat 25 2,
              country := "Germany", date := "Apr-2020", type := "Export" }] ∧
    (mkRat 25 2 : ℚ) = 12.5 := by
  refine ⟨by decide, ?_⟩
  rw [Rat.mkRat_eq_divInt, Rat.divInt_eq_div]
  norm_num

/-! ### C6: deduplication uniqueness and tie-break -/

theorem drop_duplicates_seen_nodup :
    ∀ (l : List LongRecord) (seen : List (String × String × String)),
      ((drop_duplicates_seen l seen).map recKey).Nodup ∧
        ∀ k ∈ (drop_duplicates_seen l seen).map recKey, k ∉ seen := by
  intro l
  induction l with
  | nil =>
    intro seen
    exact ⟨List.nodup_nil, fun k hk => by simp [drop_duplicates_seen] at hk⟩
  | cons r rs ih =>
    intro seen
    by_cases hm : recKey r ∈ seen
    · rw [show drop_duplicates_seen (r :: rs) seen = drop_duplicates_seen rs seen from by
        simp [drop_duplicates_seen, hm]]
      exact ih seen
    · rw [show drop_duplicates_seen (r :: rs) seen =
          r :: drop_duplicates_seen rs (recKey r :: seen) from by
        simp [drop_duplicates_seen, hm]]
      obtain ⟨h1, h2⟩ := ih (recKey r :: seen)
      constructor
      · rw [List.map_cons, List.nodup_cons]
        refine ⟨fun hcon => ?_, h1⟩
        exact (h2 _ hcon) (List.mem_cons_self _ _)
      · intro k hk
        rcases List.mem_cons.mp hk with h | h
        · exact h ▸ hm
        · exact fun hcon => (h2 k h) (List.mem_cons_of_mem _ hcon)

theorem drop_duplicates_seen_find :
    ∀ (l : List LongRecord) (seen : List (String × String × String))
      (k : String × String × String), k ∉ seen →
      (drop_duplicates_seen l seen).find? (fun r => recKey r == k) =
        l.find? (fun r => recKey r == k) := by
  intro l
  induction l with
  | nil => intro seen k _; rfl
  | cons r rs ih =>
    intro seen k hk
    by_cases hm : recKey r ∈ seen
    · rw [show drop_duplicates_seen (r :: rs) seen = drop_duplicates_seen rs seen from by
        simp [drop_duplicates_seen, hm]]
      have hne : recKey r ≠ k := fun he => hk (he ▸ hm)
      rw [List.find?_cons_of_neg _ (by simp [hne]), ih seen k hk]
    · rw [show drop_duplicates_seen (r :: rs) seen =
          r :: drop_duplicates_seen rs (recKey r :: seen) from by
        simp [drop_duplicates_seen, hm]]
      by_cases he : recKey r = k
      · rw [List.find?_cons_of_pos _ (by simp [he]), List.find?_cons_of_pos _ (by simp [he])]
      · rw [List.find?_cons_of_neg _ (by simp [he]), List.find?_cons_of_neg _ (by simp [he])]
        refine ih _ k ?_
        intro hcon
        rcases List.mem_cons.mp hcon with h | h
        · exact he h.symm
        · exact hk h

/-- C6: after per-code aggregation (and after consolidation in the merge
script) at most one record exists per `(HSCod, Country, Date)` key; and for
every key, the surviving record is exactly the first record with that key in
processing order — later duplicates, even with different values, are dropped
deterministically. -/
theorem dedup_first_wins_theorem :
    (∀ l : List LongRecord, ((drop_duplicates_first l).map recKey).Nodup)
  ∧ (∀ (l : List LongRecord) (k : String × String × String),
      (drop_duplicates_first l).find? (fun r => recKey r == k) =
        l.find? (fun r => recKey r == k))
  ∧ (∀ (listing : List String) (contents : String → List (List (Option String)))
      (hscode commodity_name : String) (out : List LongRecord),
      process_hscode_directory listing contents hscode commodity_name = some out →
      (out.map recKey).Nodup)
  ∧ (∀ frames : List (List LongRecord), ((merge_excel_files frames).map recKey).Nodup) := by
  have hnodup : ∀ l : List LongRecord, ((drop_duplicates_first l).map recKey).Nodup :=
    fun l => (drop_duplicates_seen_nodup l []).1
  refine ⟨hnodup, ?_, ?_, ?_⟩
  · intro l k
    exact drop_duplicates_seen_find l [] k (by simp)
  · intro listing contents h c out hout
    unfold process_hscode_directory at hout
    dsimp only at hout
    split at hout
    · simp at hout
    · rw [← Option.some.inj hout]
      exact hnodup _
  · intro frames
    unfold merge_excel_files
    have hperm := List.perm_insertionSort recordLe (drop_duplicates_first frames.flatten)
    exact ((hperm.map recKey).nodup_iff).mpr (hnodup _)

/-- C6 witness: two records with the same key and different values (1.0 from
the earlier row, 2.0 from the later) — the aggregation output keeps the
first and its key list has no duplicate. -/
theorem dedup_first_wins_witness :
    process_hscode_directory c6listing c6contents "X" "C" = some c6out ∧
    (c6out.map recKey).Nodup :=
  ⟨by decide, dedup_first_wins_theorem.2.2.1 c6listing c6contents "X" "C" c6out (by decide)⟩

/-! ### C7: malformed artifact rejection -/

theorem monthlyFrames_filter (contents : String → List (List (Option String)))
    (hscode commodity_name : String) :
    ∀ files : List String,
      monthlyFrames contents hscode commodity_name files =
        monthlyFrames contents hscode commodity_name
          (files.filter fun f =>
            (process_monthly_file (contents f) hscode commodity_name).isSome) := by
  intro files
  induction files with
  | nil => rfl
  | cons f fs ih =>
    simp only [monthlyFrames] at ih ⊢
    rw [List.filter_cons]
    cases hp : process_monthly_file (contents f) hscode commodity_name with
    | none =>
      rw [List.filterMap_cons]
      simp only [hp, Option.isSome_none, Bool.false_eq_true, if_false]
      exact ih
    | some recs =>
      simp only [hp, Option.isSome_some, if_true]
      rw [List.filterMap_cons, List.filterMap_cons]
      simp only [hp]
      cases hrecs : recs.isEmpty <;> simp only [ih]

/-- C7: an artifact with no header cell whose trimmed lowercased label is
`"country"` yields no records (and, the function being total, raises
nothing); likewise an artifact under the 3-row minimum, or one with no
recognized value columns, yields none; and the per-code collection over a
directory equals the collection over only the artifacts the transformer
accepts — malformed artifacts are dropped while the others are still
processed. -/
theorem malformed_artifact_theorem :
    (∀ (grid : List (List (Option String))) (h c t : String),
        findCountryIdx (grid.getD 2 []) = none → process_monthly_file grid h c t = none)
  ∧ (∀ (grid : List (List (Option String))) (h c t : String),
        grid.length < 3 → process_monthly_file grid h c t = none)
  ∧ (∀ (grid : List (List (Option String))) (h c t : String),
        extract_year_columns (grid.getD 2 []) = [] → process_monthly_file grid h c t = none)
  ∧ (∀ (contents : String → List (List (Option String))) (h c : String)
        (files : List String),
        monthlyFrames contents h c files =
          monthlyFrames contents h c
            (files.filter fun f => (process_monthly_file (contents f) h c).isSome)) := by
  refine ⟨?_, ?_, ?_, fun contents h c files => monthlyFrames_filter contents h c files⟩
  · intro grid h c t hfc
    unfold process_monthly_file
    dsimp only
    split
    · rfl
    · split
      · rfl
      · rw [hfc]
  · intro grid h c t hlen
    unfold process_monthly_file
    dsimp only
    rw [if_pos hlen]
  · intro grid h c t hyc
    unfold process_monthly_file
    dsimp only
    split
    · rfl
    · next hlen =>
      rw [hyc] at *
      simp_all

/-- C7 witness: the three malformed shapes each yield `none`, and a directory
containing a malformed artifact plus a good one collects exactly what the
good-only directory collects. -/
theorem malformed_artifact_witness :
    (findCountryIdx (c7gridNoCountry.getD 2 []) = none ∧
      process_monthly_file c7gridNoCountry "X" "C" "Export" = none) ∧
    (c7gridShort.length < 3 ∧ process_monthly_file c7gridShort "X" "C" "Export" = none) ∧
    (extract_year_columns (c7gridNoYears.getD 2 []) = [] ∧
      process_monthly_file c7gridNoYears "X" "C" "Export" = none) ∧
    monthlyFrames c7contents "X" "C" ["bad.xlsx", "good.xlsx"] =
      monthlyFrames c7contents "X" "C"
        (["bad.xlsx", "good.xlsx"].filter fun f =>
          (process_monthly_file (c7contents f) "X" "C").isSome) :=
  ⟨⟨by decide, malformed_artifact_theorem.1 c7gridNoCountry "X" "C" "Export" (by decide)⟩,
   ⟨by decide, malformed_artifact_theorem.2.1 c7gridShort "X" "C" "Export" (by decide)⟩,
   ⟨by decide, malformed_artifact_theorem.2.2.1 c7gridNoYears "X" "C" "Export" (by decide)⟩,
   malformed_artifact_theorem.2.2.2 c7contents "X" "C" ["bad.xlsx", "good.xlsx"]⟩

/-! ### C10: lexicographic processing order -/

theorem charListLe_total : ∀ as bs : List Char, charListLe as bs = true ∨ charListLe bs as = true := by
  intro as
  induction as with
  | nil => intro bs; exact Or.inl rfl
  | cons a as ih =>
    intro bs
    cases bs with
    | nil => exact Or.inr rfl
    | cons b bs =>
      by_cases hab : a = b
      · subst hab
        rcases ih bs with h | h
        · left; simpa [charListLe] using h
        · right; simpa [charListLe] using h
      · rcases lt_or_gt_of_ne hab with h | h
        · left; simp [charListLe, hab, h]
        · right; simp [charListLe, Ne.symm hab, h]

theorem charListLe_trans :
    ∀ as bs cs : List Char, charListLe as bs = true → charListLe bs cs = true →
      charListLe as cs = true := by
  intro as
  induction as with
  | nil => intro bs cs _ _; rfl
  | cons a as ih =>
    intro bs cs hab hbc
    cases bs with
    | nil => exact absurd hab (by simp [charListLe])
    | cons b bs =>
      cases cs with
      | nil => exact absurd hbc (by simp [charListLe])
      | cons c cs =>
        by_cases h1 : a = b
        · subst h1
          simp only [charListLe, if_pos rfl] at hab
          by_cases h2 : a = c
          · subst h2
            simp only [charListLe, if_pos rfl] at hbc ⊢
            exact ih bs cs hab hbc
          · simp only [charListLe, if_neg h2] at hbc ⊢
            exact hbc
        · simp only [charListLe, if_neg h1, decide_eq_true_eq] at hab
          by_cases h2 : b = c
          · subst h2
            simp [charListLe, h1, hab]
          · simp only [charListLe, if_neg h2, decide_eq_true_eq] at hbc
            have hac : a < c := lt_trans hab hbc
            simp [charListLe, ne_of_lt hac, hac]

/-- C10: the per-code aggregation processes a directory's `.xlsx` files in
lexicographic (code-point) filename order — the sorted listing is `Sorted`
under Python's string order — and `"April_2019.xlsx"` sorts strictly before
`"August_2018.xlsx"`; consequently, when both files carry a record with the
same `(HSCod, Country, Date)` key, the kept record is the one from the
alphabetically earliest filename (`April_2019.xlsx`, value 1), not from the
chronologically earliest period (`August_2018.xlsx`, value 2). -/
theorem lexicographic_order_theorem :
    (∀ listing : List String, List.Sorted pyLe (excelFilesOf listing))
  ∧ (pyLe "April_2019.xlsx" "August_2018.xlsx" ∧ ¬ pyLe "August_2018.xlsx" "April_2019.xlsx")
  ∧ process_hscode_directory c10listing c10contents "X" "CommodityX" =
      some [{ hscod := "X", commodity := "CommodityX", value := mkRat 1 1,
              country := "Germany", date := "Apr-2018", type := "Export" }] := by
  refine ⟨?_, ⟨by decide, by decide⟩, by decide⟩
  intro listing
  haveI : IsTotal String pyLe := ⟨fun a b => charListLe_total a.data b.data⟩
  haveI : IsTrans String pyLe := ⟨fun a b c => charListLe_trans a.data b.data c.data⟩
  exact List.sorted_insertionSort pyLe _
